import Mathlib

/-!
Formal model of the response-caching core of the climate-risk-tool API:
the tiered-TTL, ETag-aware in-memory cache middleware
(`src/middleware/cache.js`, enhanced variant) and the cache warming
service (`CacheWarmingService`), together with the GeoJSON route handler
they interact with (`src/routes/climate-data.js`).

Modelling conventions:
* A JS `Map` is an association list in insertion order (JS `Map`
  iteration order is insertion order; `Map.set` on an existing key
  updates the value in place without moving the key).
* `Date.now()` is an explicit `now : Nat` argument (milliseconds).
* `JSON.stringify` and `crypto.createHash('md5')` are runtime builtins
  of the host platform, abstracted as the fields of a `Crypto`
  parameter; `generateETag` composes them exactly as the source does.
  No claim depends on the concrete digest, only on it being a
  deterministic function of the payload.
* The data-access collaborator (`query` from `config/database.js`,
  i.e. SQL against PostGIS) is abstracted as a `DataAccess` record per
  the collaborator interface: a GeoJSON feature-collection fetch that
  can fail, return nothing, or return a feature collection, and two
  metadata row fetches that can fail or return rows.
* Fallible JS code (thrown/rejected promises) is `Except String`.
-/

set_option autoImplicit false


/-- JSON-serializable values (response payloads are opaque JSON to the cache). -/
inductive JsonVal where
  | null
  | bool (b : Bool)
  | num (n : Int)
  | str (s : String)
  | arr (elems : List JsonVal)
  | obj (fields : List (String × JsonVal))

/-- Host-runtime builtins used by `generateETag`: `JSON.stringify` and the
hex MD5 digest. Abstract parameters; only determinism matters. -/
structure Crypto where
  stringify : JsonVal → String
  md5 : String → String

/-- `generateETag(data)`: `crypto.createHash('md5').update(JSON.stringify(data)).digest('hex')`. -/
def generateETag (crypto : Crypto) (data : JsonVal) : String :=
  crypto.md5 (crypto.stringify data)

/-- One cache entry, as built by `InMemoryCache.set`. -/
structure CacheEntry where
  data : JsonVal
  etag : String
  expiresAt : Nat
  createdAt : Nat

/-- JS `Map.get`. -/
def mapGet {α : Type} (m : List (String × α)) (k : String) : Option α :=
  match m with
  | [] => none
  | (k', v) :: rest => if k' = k then some v else mapGet rest k

/-- JS `Map.set`: replace in place when the key is present (keeping its
position in iteration order), append otherwise. -/
def mapSet {α : Type} (m : List (String × α)) (k : String) (v : α) : List (String × α) :=
  match m with
  | [] => [(k, v)]
  | (k', v') :: rest => if k' = k then (k', v) :: rest else (k', v') :: mapSet rest k v

/-- JS `Map.delete` (keys are unique in a `Map`, so removing the first
occurrence is exact). -/
def mapDelete {α : Type} (m : List (String × α)) (k : String) : List (String × α) :=
  match m with
  | [] => []
  | (k', v') :: rest => if k' = k then rest else (k', v') :: mapDelete rest k

/-- The keys of a map in iteration (insertion) order. -/
def keysOf {α : Type} (m : List (String × α)) : List String :=
  m.map Prod.fst

/-- The tiered TTL settings fixed by the `InMemoryCache` constructor
(milliseconds). -/
structure TTLSettings where
  metadata : Nat
  geojson : Nat
  municipalities : Nat
  health : Nat
  dflt : Nat

/-- `this.ttlSettings` from the constructor: 7 days metadata, 30 days
geojson, 7 days municipalities, 1 hour health, 1 hour default. -/
def ttlSettings : TTLSettings :=
  { metadata := 7 * 24 * 60 * 60 * 1000
    geojson := 30 * 24 * 60 * 60 * 1000
    municipalities := 7 * 24 * 60 * 60 * 1000
    health := 60 * 60 * 1000
    dflt := 3600000 }

/-- The mutable state of an `InMemoryCache` instance. -/
structure InMemoryCache where
  cache : List (String × CacheEntry)
  ttl : Nat
  maxSize : Nat
  hits : Nat
  misses : Nat

/-- Constructor options (`options.ttl`, `options.maxSize`). -/
structure CacheOptions where
  ttl : Option Nat
  maxSize : Option Nat

/-- JS `x || d` for an optional number: `none` and `0` are falsy. -/
def orDefault (o : Option Nat) (d : Nat) : Nat :=
  match o with
  | none => d
  | some 0 => d
  | some n => n

/-- `new InMemoryCache(options)`. -/
def mkInMemoryCache (options : CacheOptions) : InMemoryCache :=
  { cache := []
    ttl := orDefault options.ttl 3600000
    maxSize := orDefault options.maxSize 100
    hits := 0
    misses := 0 }

/-- The singleton instance: `new InMemoryCache({ ttl: 3600000, maxSize: 400 })`. -/
def cacheSingleton : InMemoryCache :=
  mkInMemoryCache { ttl := some 3600000, maxSize := some 400 }

/-- `String.prototype.includes` on char lists. -/
def charsHasSub (sub : List Char) : List Char → Bool
  | [] => sub.isEmpty
  | c :: rest => sub.isPrefixOf (c :: rest) || charsHasSub sub rest

/-- `s.includes(sub)`. -/
def strIncludes (s sub : String) : Bool :=
  charsHasSub sub.toList s.toList

/-- `determineTTL(url)`: tier selection by substring match, first match wins. -/
def determineTTL (url : String) : Nat :=
  if strIncludes url "/indices" then ttlSettings.metadata
  else if strIncludes url "/climate-data/geojson/" then ttlSettings.geojson
  else if strIncludes url "/municipalities" then ttlSettings.municipalities
  else if strIncludes url "/health" then ttlSettings.health
  else ttlSettings.dflt

/-- `getCacheControlHeader(ttl)`: `public, max-age=<floor(ttl/1000)>`. -/
def getCacheControlHeader (ttl : Nat) : String :=
  "public, max-age=" ++ toString (ttl / 1000)

/-- `get(key)`: returns the entry if present and unexpired; a present but
expired entry is deleted and counted as a miss. Returns the looked-up
value together with the updated cache state. -/
def InMemoryCache.get (c : InMemoryCache) (now : Nat) (key : String) :
    Option CacheEntry × InMemoryCache :=
  match mapGet c.cache key with
  | none => (none, { c with misses := c.misses + 1 })
  | some item =>
    if now > item.expiresAt then
      (none, { c with cache := mapDelete c.cache key, misses := c.misses + 1 })
    else
      (some item, { c with hits := c.hits + 1 })

/-- `set(key, data, customTtl)`: when the store is full, delete the first
key in iteration order (the oldest-inserted entry), then insert with
`expiresAt = now + (customTtl || this.ttl)` and a fresh ETag. -/
def InMemoryCache.set (crypto : Crypto) (c : InMemoryCache) (now : Nat)
    (key : String) (data : JsonVal) (customTtl : Option Nat) : InMemoryCache :=
  let cache0 :=
    if c.cache.length ≥ c.maxSize then
      match c.cache.head? with
      | some (firstKey, _) => mapDelete c.cache firstKey
      | none => c.cache
    else c.cache
  let ttl := orDefault customTtl c.ttl
  let etag := generateETag crypto data
  { c with
    cache := mapSet cache0 key
      { data := data, etag := etag, expiresAt := now + ttl, createdAt := now } }

/-- `clear()`. -/
def InMemoryCache.clear (c : InMemoryCache) : InMemoryCache :=
  { c with cache := [], hits := 0, misses := 0 }

/-- `getStats()` (the `hitRate` percentage string is produced by
floating-point `toFixed` and is outside this model). -/
structure CacheStats where
  size : Nat
  maxSize : Nat
  hits : Nat
  misses : Nat
  ttl : Nat

def InMemoryCache.getStats (c : InMemoryCache) : CacheStats :=
  { size := c.cache.length
    maxSize := c.maxSize
    hits := c.hits
    misses := c.misses
    ttl := c.ttl }

/-- The parts of an Express request the middleware inspects. -/
structure Request where
  method : String
  originalUrl : String
  ifNoneMatch : Option String

/-- The response the middleware (or the wrapped handler through the
middleware's `res.json` override) produces: status, JSON body (none for
a bodyless `304 ... .end()`), and the headers set on the way out. -/
structure HttpResponse where
  status : Nat
  body : Option JsonVal
  headers : List (String × String)

/-- `generateKey(req)`: method and full original URL. -/
def generateKey (req : Request) : String :=
  req.method ++ ":" ++ req.originalUrl

/-- One pass of a request through `middleware()`. The wrapped downstream
handler is summarized by the status code it has set by the time it calls
`res.json` and the payload it passes (`handler`); non-GET requests and
cache-management paths fall through to the handler uncached. -/
def middleware (crypto : Crypto) (c : InMemoryCache) (now : Nat) (req : Request)
    (handler : Nat × JsonVal) : HttpResponse × InMemoryCache :=
  if req.method ≠ "GET" then
    ({ status := handler.1, body := some handler.2, headers := [] }, c)
  else if strIncludes req.originalUrl "/cache/" then
    ({ status := handler.1, body := some handler.2, headers := [] }, c)
  else
    let key := generateKey req
    let looked := c.get now key
    let c1 := looked.2
    let ttl := determineTTL req.originalUrl
    match looked.1 with
    | some item =>
      if req.ifNoneMatch = some item.etag then
        ({ status := 304, body := none,
           headers := [("X-Cache", "HIT-304"), ("ETag", item.etag),
                       ("Cache-Control", getCacheControlHeader ttl)] }, c1)
      else
        ({ status := 200, body := some item.data,
           headers := [("X-Cache", "HIT"), ("X-Cache-Key", key), ("ETag", item.etag),
                       ("Cache-Control", getCacheControlHeader ttl)] }, c1)
    | none =>
      if handler.1 = 200 then
        ({ status := handler.1, body := some handler.2,
           headers := [("ETag", generateETag crypto handler.2), ("X-Cache", "MISS"),
                       ("X-Cache-Key", key), ("Cache-Control", getCacheControlHeader ttl)] },
         c1.set crypto now key handler.2 (some ttl))
      else
        ({ status := handler.1, body := some handler.2,
           headers := [("X-Cache", "MISS"), ("X-Cache-Key", key),
                       ("Cache-Control", getCacheControlHeader ttl)] }, c1)

/-- The data-access collaborator reached through `query`: the assembled
GeoJSON feature collection for a scenario/period/index (the warmer's
`result.rows[0]?.geojson || null` and the route's `result.rows[0].geojson`
falsy check are both modelled by the `Option`), and the two metadata row
sets. `Except.error` is a thrown/rejected database call. -/
structure DataAccess where
  geojsonResult : String → String → String → Except String (Option JsonVal)
  indicesRows : Except String (List JsonVal)
  municipalitiesRows : Except String (List JsonVal)

/-- The 27 climate indices of `CLIMATE_INDICES`. -/
def CLIMATE_INDICES : List String :=
  ["cdd", "cwd", "prcptot", "r10mm", "r20mm", "r95p", "r99p",
   "r95ptot", "r99ptot", "rx1day", "rx5day", "sdii",
   "fd", "tn10p", "tn90p", "tnlt2", "tnn", "tnx",
   "tx10p", "tx90p", "txge30", "txgt50p", "txn", "txx",
   "csdi", "wsdi", "txd_tnd"]

/-- The 8 priority indices of `PRIORITY_INDICES`. -/
def PRIORITY_INDICES : List String :=
  ["cdd", "wsdi", "txge30", "prcptot", "rx1day", "fd", "r10mm", "csdi"]

/-- The warmer's counters (`this.warmedCount`, `this.failedCount`). -/
structure WarmState where
  warmedCount : Nat
  failedCount : Nat

/-- `buildGeoJSON(scenario, period, index)`: the warmer's own SQL against
the collaborator; `result.rows[0]?.geojson || null` is the `Option`. -/
def buildGeoJSON (db : DataAccess) (scenario period index : String) :
    Except String (Option JsonVal) :=
  db.geojsonResult scenario period index

/-- The cache key template string of `warmEntry`. -/
def geoKey (scenario period index : String) : String :=
  "GET:/api/climate-data/geojson/" ++ scenario ++ "/" ++ period ++ "/" ++ index

/-- The `{ success: true, data }` envelope `warmEntry` stores. -/
def warmWrap (data : JsonVal) : JsonVal :=
  JsonVal.obj [("success", JsonVal.bool true), ("data", data)]

/-- The `{ success: true, count, data }` envelope `warmMetadata` stores. -/
def metaEnvelope (rows : List JsonVal) : JsonVal :=
  JsonVal.obj [("success", JsonVal.bool true), ("count", JsonVal.num rows.length),
               ("data", JsonVal.arr rows)]

/-- `warmEntry(cache, scenario, period, index)`: on non-empty data, store
`{ success: true, data }` under the route's key with the hardcoded 30-day
TTL and count a success; an empty result or a thrown call is caught and
counted as a failure. Returns the JS function's boolean plus the updated
counters and cache. -/
def warmEntry (crypto : Crypto) (db : DataAccess) (st : WarmState)
    (c : InMemoryCache) (now : Nat) (scenario period index : String) :
    Bool × WarmState × InMemoryCache :=
  match buildGeoJSON db scenario period index with
  | Except.error _ =>
    (false, { st with failedCount := st.failedCount + 1 }, c)
  | Except.ok none =>
    (false, { st with failedCount := st.failedCount + 1 }, c)
  | Except.ok (some data) =>
    let ttl := 30 * 24 * 60 * 60 * 1000
    let payload := warmWrap data
    (true, { st with warmedCount := st.warmedCount + 1 },
     c.set crypto now (geoKey scenario period index) payload (some ttl))

/-- One `warmEntry` invocation inside a batch, threading counters and cache. -/
def warmStep (crypto : Crypto) (db : DataAccess) (now : Nat) (scenario period : String)
    (acc : WarmState × InMemoryCache) (index : String) : WarmState × InMemoryCache :=
  let r := warmEntry crypto db acc.1 acc.2 now scenario period index
  (r.2.1, r.2.2)

/-- The batch loop `for (let i = 0; i < l.length; i += 5) slice(i, i + 5)`. -/
def batchesOf5 {α : Type} (l : List α) : List (List α) :=
  (List.range ((l.length + 4) / 5)).map (fun b => (l.drop (5 * b)).take 5)

/-- `Promise.all` over one batch of `warmEntry` calls. The in-batch
concurrency of the source touches distinct keys and commutes on the
counters, so the batch is modelled as a fold in list order. -/
def warmBatch (crypto : Crypto) (db : DataAccess) (now : Nat) (scenario period : String)
    (acc : WarmState × InMemoryCache) (batch : List String) : WarmState × InMemoryCache :=
  batch.foldl (warmStep crypto db now scenario period) acc

/-- `warmTier1(cache)`: scenario `ssp245`, period `near-term_2021-2040`;
priority indices in batches of 5 first, then the remaining indices in
batches of 5. -/
def warmTier1 (crypto : Crypto) (db : DataAccess) (st : WarmState)
    (c : InMemoryCache) (now : Nat) : WarmState × InMemoryCache :=
  let scenario := "ssp245"
  let period := "near-term_2021-2040"
  let afterPriority :=
    (batchesOf5 PRIORITY_INDICES).foldl (warmBatch crypto db now scenario period) (st, c)
  let remainingIndices := CLIMATE_INDICES.filter (fun idx => !(PRIORITY_INDICES.contains idx))
  (batchesOf5 remainingIndices).foldl (warmBatch crypto db now scenario period) afterPriority

/-- `warmMetadata(cache)`: fetch the active climate indices and the
municipalities, wrap each row set in a `{ success, count, data }`
envelope, and store both under the metadata routes' keys with the 7-day
TTL. The entire body is inside one `try`; a thrown call is caught,
logged, and counted as 2 failures without rethrowing. -/
def warmMetadata (crypto : Crypto) (db : DataAccess) (st : WarmState)
    (c : InMemoryCache) (now : Nat) : WarmState × InMemoryCache :=
  match db.indicesRows with
  | Except.error _ => ({ st with failedCount := st.failedCount + 2 }, c)
  | Except.ok rows =>
    let indicesData := metaEnvelope rows
    let ttl := 7 * 24 * 60 * 60 * 1000
    let c1 := c.set crypto now "GET:/api/indices" indicesData (some ttl)
    match db.municipalitiesRows with
    | Except.error _ => ({ st with failedCount := st.failedCount + 2 }, c1)
    | Except.ok mrows =>
      let municData := metaEnvelope mrows
      let c2 := c1.set crypto now "GET:/api/municipalities" municData (some ttl)
      ({ st with warmedCount := st.warmedCount + 2 }, c2)

/-- `warmCache(cache)`: reset the counters, run the metadata phase, then
Tier 1. Every awaited call inside the two phases is wrapped in its own
`try`/`catch` that does not rethrow, so the surrounding `try`/`catch` in
`warmCache` (which would rethrow) is unreachable and the run is total. -/
def warmCache (crypto : Crypto) (db : DataAccess) (c : InMemoryCache) (now : Nat) :
    WarmState × InMemoryCache :=
  let st : WarmState := { warmedCount := 0, failedCount := 0 }
  let r1 := warmMetadata crypto db st c now
  warmTier1 crypto db r1.1 r1.2 now

/-- The route's `validIndices` allow-list (same 27 codes). -/
def validIndices : List String :=
  ["cdd", "cwd", "prcptot", "r10mm", "r20mm", "r95p", "r99p",
   "r95ptot", "r99ptot", "rx1day", "rx5day", "sdii",
   "fd", "tn10p", "tn90p", "tnlt2", "tnn", "tnx",
   "tx10p", "tx90p", "txge30", "txgt50p", "txn", "txx",
   "csdi", "wsdi", "txd_tnd"]

/-- `GET /api/climate-data/geojson/:scenario/:period/:index`: the status
and payload the handler sends through `res.json` (the pair the
middleware's override intercepts); a thrown database call goes to
`next(error)` instead of `res.json`. On success the raw feature
collection is passed with no envelope. -/
def geojsonRoute (db : DataAccess) (scenario period index : String) :
    Except String (Nat × JsonVal) :=
  if !(validIndices.contains index) then
    Except.ok (400, JsonVal.obj
      [("success", JsonVal.bool false), ("error", JsonVal.str "Invalid climate index"),
       ("valid_indices", JsonVal.arr (validIndices.map JsonVal.str))])
  else
    match db.geojsonResult scenario period index with
    | Except.error e => Except.error e
    | Except.ok none => Except.ok (404, JsonVal.obj
        [("success", JsonVal.bool false),
         ("error", JsonVal.str "No data found for specified parameters")])
    | Except.ok (some fc) => Except.ok (200, fc)

/-- Repeated `set` with the default TTL (`customTtl` omitted). -/
def storeList (crypto : Crypto) (now : Nat) (c : InMemoryCache)
    (kvs : List (String × JsonVal)) : InMemoryCache :=
  kvs.foldl (fun acc kv => acc.set crypto now kv.1 kv.2 none) c

/-- The entry `set` builds for a key/payload pair at a given TTL. -/
def entryOf (crypto : Crypto) (now ttl : Nat) (kv : String × JsonVal) :
    String × CacheEntry :=
  (kv.1, { data := kv.2, etag := generateETag crypto kv.2,
           expiresAt := now + ttl, createdAt := now })

/-- The Tier-1 index order actually processed: priority indices first,
then the remaining `CLIMATE_INDICES` in order. -/
def TIER1_INDICES : List String :=
  PRIORITY_INDICES ++ CLIMATE_INDICES.filter (fun idx => !(PRIORITY_INDICES.contains idx))

/-- A concrete digest instance used for closed evaluations (the identity
on the serialized content; a constant serializer suffices since no claim
depends on the digest's value). -/
def cryptoId : Crypto := { stringify := fun _ => "", md5 := fun s => s }

/-- Witness for C5 at a concrete expired entry. -/
def cacheExpired : InMemoryCache :=
  (mkInMemoryCache { ttl := none, maxSize := none }).set cryptoId 0 "GET:/api/periods"
    (JsonVal.str "v") none

/-- Witness fixture for C7/C9: a cache holding one fresh entry for
`GET:/api/periods` (etag `""` under `cryptoId`). -/
def cacheHit : InMemoryCache :=
  (mkInMemoryCache { ttl := none, maxSize := some 5 }).set cryptoId 0 "GET:/api/periods"
    (JsonVal.str "v") none

/-- A full cache holding `k1` then `k2` with `maxSize` 2 (built through
the constructor and `set`). -/
def cacheFull2 : InMemoryCache :=
  ((mkInMemoryCache { ttl := some 3600000, maxSize := some 2 }).set cryptoId 0 "k1"
    (JsonVal.num 1) none).set cryptoId 0 "k2" (JsonVal.num 2) none

def e1Full : CacheEntry :=
  { data := JsonVal.num 1, etag := "", expiresAt := 3600000, createdAt := 0 }

def e2Full : CacheEntry :=
  { data := JsonVal.num 2, etag := "", expiresAt := 3600000, createdAt := 0 }

/-- C10 counterexample fixtures: re-store the oldest key of a full cache,
then insert one fresh key. -/
def cacheRestored : InMemoryCache :=
  cacheFull2.set cryptoId 1 "k1" (JsonVal.num 9) none

def cacheAfterNew : InMemoryCache :=
  cacheRestored.set cryptoId 2 "k3" (JsonVal.num 4) none

/-- A cache with room (maxSize 5) holding `a` then `b`. -/
def cacheRoomy : InMemoryCache :=
  ((mkInMemoryCache { ttl := none, maxSize := some 5 }).set cryptoId 0 "a"
    (JsonVal.num 1) none).set cryptoId 0 "b" (JsonVal.num 2) none

def c4After : InMemoryCache :=
  storeList cryptoId 0 (mkInMemoryCache { ttl := none, maxSize := some 2 })
    ((("a", JsonVal.num 1) :: [("b", JsonVal.num 2)]) ++ [("c", JsonVal.num 3)])

/-- The entry `warmMetadata` builds for one metadata route. -/
def metaEntry (crypto : Crypto) (now : Nat) (ttlc : Nat) (rows : List JsonVal) : CacheEntry :=
  { data := metaEnvelope rows, etag := generateETag crypto (metaEnvelope rows),
    expiresAt := now + orDefault (some (7 * 24 * 60 * 60 * 1000)) ttlc, createdAt := now }

/-- The 29 keys the warm run installs, in insertion order. -/
def WARM_KEYS : List String :=
  ["GET:/api/indices", "GET:/api/municipalities"] ++
    TIER1_INDICES.map (geoKey "ssp245" "near-term_2021-2040")

/-- Witness fixtures: a collaborator returning a fixed feature collection
for every combination and empty metadata row sets. -/
def fcSample : JsonVal :=
  JsonVal.obj [("type", JsonVal.str "FeatureCollection"),
    ("features", JsonVal.arr [JsonVal.obj [("type", JsonVal.str "Feature")]])]

def dbOk : DataAccess :=
  { geojsonResult := fun _ _ _ => Except.ok (some fcSample)
    indicesRows := Except.ok []
    municipalitiesRows := Except.ok [] }

/-- A collaborator whose metadata (indices) fetch throws, while GeoJSON
fetches succeed. -/
def dbMetaFail : DataAccess :=
  { geojsonResult := fun _ _ _ => Except.ok (some fcSample)
    indicesRows := Except.error "ECONNREFUSED"
    municipalitiesRows := Except.ok [] }

/-- The first field name of a JSON object (distinguishes the `success`
envelope from a raw `FeatureCollection`, whose first field is `type`). -/
def topFieldName (j : JsonVal) : Option String :=
  match j with
  | JsonVal.obj ((k, _) :: _) => some k
  | _ => none

theorem mapGet_eq_none_iff {α : Type} :
    ∀ (l : List (String × α)) (k : String), mapGet l k = none ↔ k ∉ keysOf l := by
  intro l k
  induction l with
  | nil => simp [mapGet, keysOf]
  | cons p rest ih =>
    cases p with
    | mk k' v =>
      by_cases hk : k' = k
      · subst hk
        simp [mapGet, keysOf]
      · simp [mapGet, hk, keysOf, ih, Ne.symm hk]
      -- membership in the mapped keys reduces to head inequality plus the tail

theorem mapSet_of_get_none {α : Type} :
    ∀ (l : List (String × α)) (k : String) (v : α), mapGet l k = none →
      mapSet l k v = l ++ [(k, v)]
  | [], _, _, _ => rfl
  | (k', v') :: rest, k, v, h => by
    by_cases hk : k' = k
    · simp [mapGet, hk] at h
    · simp only [mapGet, if_neg hk] at h
      simp [mapSet, hk, mapSet_of_get_none rest k v h]

theorem mapGet_append_none {α : Type} :
    ∀ (l1 l2 : List (String × α)) (k : String), mapGet l1 k = none →
      mapGet (l1 ++ l2) k = mapGet l2 k
  | [], _, _, _ => rfl
  | (k', v') :: rest, l2, k, h => by
    by_cases hk : k' = k
    · simp [mapGet, hk] at h
    · simp only [mapGet, if_neg hk] at h
      simp [mapGet, hk, mapGet_append_none rest l2 k h]

theorem keysOf_append {α : Type} (l1 l2 : List (String × α)) :
    keysOf (l1 ++ l2) = keysOf l1 ++ keysOf l2 := by
  simp [keysOf]

theorem mapSet_length_of_mem {α : Type} :
    ∀ (l : List (String × α)) (k : String) (v : α), k ∈ keysOf l →
      (mapSet l k v).length = l.length
  | [], k, v, h => by simp [keysOf] at h
  | (k', v') :: rest, k, v, h => by
    by_cases hk : k' = k
    · simp [mapSet, hk]
    · have hmem : k ∈ keysOf rest := by
        simp [keysOf] at h ⊢
        exact h.resolve_left (fun he => hk he.symm)
      simp [mapSet, hk, mapSet_length_of_mem rest k v hmem]

theorem keysOf_mapSet_of_mem {α : Type} :
    ∀ (l : List (String × α)) (k : String) (v : α), k ∈ keysOf l →
      keysOf (mapSet l k v) = keysOf l
  | [], k, v, h => by simp [keysOf] at h
  | (k', v') :: rest, k, v, h => by
    by_cases hk : k' = k
    · simp [mapSet, hk, keysOf]
    · have hmem : k ∈ keysOf rest := by
        simp [keysOf] at h ⊢
        exact h.resolve_left (fun he => hk he.symm)
      simp [mapSet, hk, keysOf, keysOf_mapSet_of_mem rest k v hmem]
      simpa [keysOf] using keysOf_mapSet_of_mem rest k v hmem

theorem mapGet_mapSet_self {α : Type} :
    ∀ (l : List (String × α)) (k : String) (v : α), k ∈ keysOf l →
      mapGet (mapSet l k v) k = some v
  | [], k, v, h => by simp [keysOf] at h
  | (k', v') :: rest, k, v, h => by
    by_cases hk : k' = k
    · simp [mapSet, hk, mapGet]
    · have hmem : k ∈ keysOf rest := by
        simp [keysOf] at h ⊢
        exact h.resolve_left (fun he => hk he.symm)
      simp [mapSet, hk, mapGet, mapGet_mapSet_self rest k v hmem]

theorem mapDelete_cons_self {α : Type} (k : String) (v : α) (l : List (String × α)) :
    mapDelete ((k, v) :: l) k = l := by
  simp [mapDelete]

theorem mapDelete_length {α : Type} :
    ∀ (l : List (String × α)) (k : String) (v : α), mapGet l k = some v →
      (mapDelete l k).length + 1 = l.length
  | [], k, v, h => by simp [mapGet] at h
  | (k', v') :: rest, k, v, h => by
    by_cases hk : k' = k
    · simp [mapDelete, hk]
    · simp only [mapGet, if_neg hk] at h
      simp [mapDelete, hk, mapDelete_length rest k v h]

theorem mapGet_mapDelete_self {α : Type} :
    ∀ (l : List (String × α)) (k : String), (keysOf l).Nodup →
      mapGet (mapDelete l k) k = none
  | [], k, _ => rfl
  | (k', v') :: rest, k, hnd => by
    have hnd2 : (k' :: keysOf rest).Nodup := hnd
    by_cases hk : k' = k
    · subst hk
      have hmem : k' ∉ keysOf rest := (List.nodup_cons.mp hnd2).1
      simp [mapDelete, (mapGet_eq_none_iff rest k').mpr hmem]
    · simp [mapDelete, hk, mapGet,
        mapGet_mapDelete_self rest k (List.nodup_cons.mp hnd2).2]

theorem set_ttl (crypto : Crypto) (c : InMemoryCache) (now : Nat) (k : String)
    (d : JsonVal) (t : Option Nat) : (c.set crypto now k d t).ttl = c.ttl := rfl

theorem set_maxSize (crypto : Crypto) (c : InMemoryCache) (now : Nat) (k : String)
    (d : JsonVal) (t : Option Nat) : (c.set crypto now k d t).maxSize = c.maxSize := rfl

theorem set_hits (crypto : Crypto) (c : InMemoryCache) (now : Nat) (k : String)
    (d : JsonVal) (t : Option Nat) : (c.set crypto now k d t).hits = c.hits := rfl

theorem set_misses (crypto : Crypto) (c : InMemoryCache) (now : Nat) (k : String)
    (d : JsonVal) (t : Option Nat) : (c.set crypto now k d t).misses = c.misses := rfl

/-- `set` below capacity with a fresh key appends the new entry, keeping
everything else. -/
theorem set_of_fresh (crypto : Crypto) (c : InMemoryCache) (now : Nat) (k : String)
    (d : JsonVal) (t : Option Nat)
    (hlt : c.cache.length < c.maxSize) (hfresh : mapGet c.cache k = none) :
    c.set crypto now k d t = { c with cache := c.cache ++
      [(k, { data := d, etag := generateETag crypto d,
             expiresAt := now + orDefault t c.ttl, createdAt := now })] } := by
  have hnot : ¬ c.cache.length ≥ c.maxSize := by omega
  simp [InMemoryCache.set, hnot, mapSet_of_get_none c.cache k _ hfresh]

/-- `set` at or above capacity always deletes the oldest-inserted entry
first, then performs the `Map.set`. -/
theorem set_at_capacity (crypto : Crypto) (c : InMemoryCache) (now : Nat) (k : String)
    (d : JsonVal) (t : Option Nat) (fk : String) (fe : CacheEntry)
    (tl : List (String × CacheEntry))
    (hc : c.cache = (fk, fe) :: tl) (hfull : c.maxSize ≤ c.cache.length) :
    c.set crypto now k d t = { c with cache := (mapSet tl k
      { data := d, etag := generateETag crypto d,
        expiresAt := now + orDefault t c.ttl, createdAt := now }) } := by
  have hge : c.maxSize ≤ tl.length + 1 := by
    rw [hc] at hfull
    simpa using hfull
  simp [InMemoryCache.set, hc, hge, mapDelete_cons_self]

theorem storeList_append (crypto : Crypto) (now : Nat) (c : InMemoryCache)
    (l1 l2 : List (String × JsonVal)) :
    storeList crypto now c (l1 ++ l2) = storeList crypto now (storeList crypto now c l1) l2 := by
  simp [storeList, List.foldl_append]

/-- Inserting fresh, pairwise-distinct keys while the store stays within
capacity appends the corresponding entries in order and touches nothing
else. -/
theorem storeList_fresh (crypto : Crypto) (now : Nat) :
    ∀ (kvs : List (String × JsonVal)) (c : InMemoryCache),
      c.cache.length + kvs.length ≤ c.maxSize →
      (∀ q ∈ kvs, mapGet c.cache q.1 = none) →
      (kvs.map Prod.fst).Nodup →
      storeList crypto now c kvs =
        { c with cache := c.cache ++ kvs.map (entryOf crypto now c.ttl) }
  | [], c, _, _, _ => by simp [storeList]
  | kv :: rest, c, hlen, hfresh, hnd => by
    have hlt : c.cache.length < c.maxSize := by
      simp only [List.length_cons] at hlen
      omega
    have hfkv : mapGet c.cache kv.1 = none := hfresh kv (List.mem_cons_self kv rest)
    have hnd2 : (kv.1 :: rest.map Prod.fst).Nodup := hnd
    have hset := set_of_fresh crypto c now kv.1 kv.2 none hlt hfkv
    have hstep : storeList crypto now c (kv :: rest) =
        storeList crypto now (c.set crypto now kv.1 kv.2 none) rest := by
      simp [storeList]
    have hne : ∀ q ∈ rest, kv.1 ≠ q.1 := by
      intro q hq he
      exact (List.nodup_cons.mp hnd2).1 (he ▸ List.mem_map.mpr ⟨q, hq, rfl⟩)
    have hfresh' : ∀ q ∈ rest,
        mapGet (c.cache ++ [entryOf crypto now c.ttl kv]) q.1 = none := by
      intro q hq
      rw [mapGet_append_none _ _ _ (hfresh q (List.mem_cons_of_mem kv hq))]
      simp [entryOf, mapGet, hne q hq]
    have hih := storeList_fresh crypto now rest
      { c with cache := c.cache ++ [entryOf crypto now c.ttl kv] }
      (by simp only [List.length_cons] at hlen; simp; omega)
      hfresh' (List.nodup_cons.mp hnd2).2
    have hset' : c.set crypto now kv.1 kv.2 none =
        { c with cache := c.cache ++ [entryOf crypto now c.ttl kv] } := by
      rw [hset]
      rfl
    rw [hstep, hset', hih]
    simp [List.append_assoc]

/-- The batches of 5 only group the sequential processing: Tier-1 warming
is the flat fold of `warmEntry` steps over the Tier-1 index order. -/
theorem warmTier1_eq_foldl (crypto : Crypto) (db : DataAccess) (st : WarmState)
    (c : InMemoryCache) (now : Nat) :
    warmTier1 crypto db st c now =
      TIER1_INDICES.foldl (warmStep crypto db now "ssp245" "near-term_2021-2040") (st, c) := by
  rfl

/-- Warming a list of indices whose fetches all return non-empty data,
into a cache with room for all of them and none of their keys present,
appends one entry per index, counts one success per index and no
failures, and leaves the counters and the rest of the state alone. -/
theorem warmSeq_fresh (crypto : Crypto) (db : DataAccess) (now : Nat) (s p : String) :
    ∀ (idxs : List String) (st : WarmState) (c : InMemoryCache),
      (∀ i ∈ idxs, ∃ fc, db.geojsonResult s p i = Except.ok (some fc)) →
      c.cache.length + idxs.length ≤ c.maxSize →
      (∀ i ∈ idxs, mapGet c.cache (geoKey s p i) = none) →
      (idxs.map (geoKey s p)).Nodup →
      keysOf (idxs.foldl (warmStep crypto db now s p) (st, c)).2.cache
          = keysOf c.cache ++ idxs.map (geoKey s p) ∧
        (idxs.foldl (warmStep crypto db now s p) (st, c)).2.cache.length
          = c.cache.length + idxs.length ∧
        (idxs.foldl (warmStep crypto db now s p) (st, c)).1.warmedCount
          = st.warmedCount + idxs.length ∧
        (idxs.foldl (warmStep crypto db now s p) (st, c)).1.failedCount
          = st.failedCount ∧
        (idxs.foldl (warmStep crypto db now s p) (st, c)).2.maxSize = c.maxSize ∧
        (idxs.foldl (warmStep crypto db now s p) (st, c)).2.hits = c.hits ∧
        (idxs.foldl (warmStep crypto db now s p) (st, c)).2.misses = c.misses
  | [], st, c, _, _, _, _ => by simp
  | i :: rest, st, c, hok, hlen, hfresh, hnd => by
    obtain ⟨fc, hfc⟩ := hok i (List.mem_cons_self i rest)
    have hlt : c.cache.length < c.maxSize := by
      simp only [List.length_cons] at hlen
      omega
    have hfi : mapGet c.cache (geoKey s p i) = none :=
      hfresh i (List.mem_cons_self i rest)
    have hnd2 : (geoKey s p i :: rest.map (geoKey s p)).Nodup := hnd
    have hstep : warmStep crypto db now s p (st, c) i =
        ({ st with warmedCount := st.warmedCount + 1 },
         c.set crypto now (geoKey s p i) (warmWrap fc)
           (some (30 * 24 * 60 * 60 * 1000))) := by
      simp [warmStep, warmEntry, buildGeoJSON, hfc]
    have hcset := set_of_fresh crypto c now (geoKey s p i) (warmWrap fc)
      (some (30 * 24 * 60 * 60 * 1000)) hlt hfi
    have hne : ∀ j ∈ rest, geoKey s p i ≠ geoKey s p j := by
      intro j hj he
      exact (List.nodup_cons.mp hnd2).1 (he ▸ List.mem_map.mpr ⟨j, hj, rfl⟩)
    obtain ⟨h1, h2, h3, h4, h5, h6, h7⟩ := warmSeq_fresh crypto db now s p rest
      { st with warmedCount := st.warmedCount + 1 }
      { c with cache := c.cache ++
        [(geoKey s p i,
          { data := warmWrap fc, etag := generateETag crypto (warmWrap fc),
            expiresAt := now + orDefault (some (30 * 24 * 60 * 60 * 1000)) c.ttl,
            createdAt := now })] }
      (fun j hj => hok j (List.mem_cons_of_mem i hj))
      (by simp only [List.length_cons] at hlen; simp; omega)
      (by
        intro j hj
        rw [mapGet_append_none _ _ _ (hfresh j (List.mem_cons_of_mem i hj))]
        simp [mapGet, hne j hj])
      (List.nodup_cons.mp hnd2).2
    rw [List.foldl_cons, hstep, hcset]
    refine ⟨?_, ?_, ?_, ?_, ?_, ?_, ?_⟩
    · rw [h1]
      simp [keysOf, List.append_assoc]
    · rw [h2]
      simp
      omega
    · rw [h3]
      simp
      omega
    · exact h4
    · exact h5
    · exact h6
    · exact h7

/-- Claim C5: a lookup of a key whose entry expired strictly in the past
returns absent, removes the entry (size down by one, key gone), counts
exactly one extra miss, and leaves the hit counter unchanged. -/
theorem get_expired_removes_and_counts_miss (c : InMemoryCache) (now : Nat)
    (key : String) (item : CacheEntry)
    (hfind : mapGet c.cache key = some item)
    (hexp : item.expiresAt < now)
    (hnd : (keysOf c.cache).Nodup) :
    (c.get now key).1 = none ∧
    (c.get now key).2.cache.length + 1 = c.cache.length ∧
    mapGet (c.get now key).2.cache key = none ∧
    (c.get now key).2.misses = c.misses + 1 ∧
    (c.get now key).2.hits = c.hits := by
  have hgt : now > item.expiresAt := hexp
  simp [InMemoryCache.get, hfind, hgt, mapDelete_length c.cache key item hfind,
    mapGet_mapDelete_self c.cache key hnd]

theorem get_expired_removes_and_counts_miss_witness :
    (cacheExpired.get 3600001 "GET:/api/periods").1 = none ∧
    (cacheExpired.get 3600001 "GET:/api/periods").2.cache.length + 1
      = cacheExpired.cache.length ∧
    mapGet (cacheExpired.get 3600001 "GET:/api/periods").2.cache "GET:/api/periods" = none ∧
    (cacheExpired.get 3600001 "GET:/api/periods").2.misses = cacheExpired.misses + 1 ∧
    (cacheExpired.get 3600001 "GET:/api/periods").2.hits = cacheExpired.hits :=
  get_expired_removes_and_counts_miss cacheExpired 3600001 "GET:/api/periods"
    { data := JsonVal.str "v", etag := "", expiresAt := 3600000, createdAt := 0 }
    rfl (by decide) (by decide)

/-- Claim C6 counterexample: a path containing the GeoJSON marker AND the
municipalities marker AND the indices marker resolves to the 7-day
metadata tier, not the 30-day GeoJSON tier, because the indices check
runs first; so the claim's universal statement about every path with
both the GeoJSON and municipalities markers is false. -/
theorem determineTTL_indices_overrides_geojson :
    strIncludes "/api/climate-data/geojson/municipalities/indices"
      "/climate-data/geojson/" = true ∧
    strIncludes "/api/climate-data/geojson/municipalities/indices"
      "/municipalities" = true ∧
    determineTTL "/api/climate-data/geojson/municipalities/indices"
      ≠ ttlSettings.geojson ∧
    determineTTL "/api/climate-data/geojson/municipalities/indices"
      = ttlSettings.metadata := by
  refine ⟨rfl, rfl, by decide, rfl⟩

/-- Claim C6 (amended): `determineTTL` checks the markers in the fixed
order indices, GeoJSON, municipalities, health, default; consequently a
path containing the GeoJSON marker and NOT the indices marker gets the
30-day GeoJSON tier even when it also contains the municipalities
marker. -/
theorem determineTTL_geojson_beats_municipalities (url : String)
    (hNoInd : strIncludes url "/indices" = false)
    (hGeo : strIncludes url "/climate-data/geojson/" = true) :
    determineTTL url = ttlSettings.geojson := by
  simp [determineTTL, hNoInd, hGeo]

theorem determineTTL_geojson_beats_municipalities_witness :
    determineTTL "/api/climate-data/geojson/municipalities/cdd" = ttlSettings.geojson :=
  determineTTL_geojson_beats_municipalities
    "/api/climate-data/geojson/municipalities/cdd" rfl rfl

/-- Claim C7: on an unexpired cache hit for a cacheable GET request, a
matching `If-None-Match` validator yields a bodyless 304 with the ETag
and the tier's `Cache-Control: public, max-age=floor(ttl/1000)` header;
an absent or non-matching validator yields the stored payload verbatim
with hit headers, the fingerprint, and the same `Cache-Control` value. -/
theorem middleware_hit_conditional_semantics (crypto : Crypto) (c : InMemoryCache)
    (now : Nat) (req : Request) (handler : Nat × JsonVal) (item : CacheEntry)
    (hm : req.method = "GET")
    (hnc : strIncludes req.originalUrl "/cache/" = false)
    (hfind : mapGet c.cache (generateKey req) = some item)
    (hfresh : now ≤ item.expiresAt) :
    (req.ifNoneMatch = some item.etag →
       (middleware crypto c now req handler).1.status = 304 ∧
       (middleware crypto c now req handler).1.body = none ∧
       (middleware crypto c now req handler).1.headers =
         [("X-Cache", "HIT-304"), ("ETag", item.etag),
          ("Cache-Control",
           "public, max-age=" ++ toString (determineTTL req.originalUrl / 1000))]) ∧
    (req.ifNoneMatch ≠ some item.etag →
       (middleware crypto c now req handler).1.status = 200 ∧
       (middleware crypto c now req handler).1.body = some item.data ∧
       (middleware crypto c now req handler).1.headers =
         [("X-Cache", "HIT"), ("X-Cache-Key", generateKey req), ("ETag", item.etag),
          ("Cache-Control",
           "public, max-age=" ++ toString (determineTTL req.originalUrl / 1000))]) := by
  have hng : ¬ now > item.expiresAt := by omega
  have hget : c.get now (generateKey req) = (some item, { c with hits := c.hits + 1 }) := by
    simp [InMemoryCache.get, hfind, hng]
  constructor
  · intro hmatch
    simp [middleware, hm, hnc, hget, hmatch, getCacheControlHeader]
  · intro hdiff
    simp [middleware, hm, hnc, hget, hdiff, getCacheControlHeader]

theorem middleware_hit_conditional_semantics_witness :
    (middleware cryptoId cacheHit 1
      { method := "GET", originalUrl := "/api/periods", ifNoneMatch := some "" }
      (200, JsonVal.null)).1.status = 304 ∧
    (middleware cryptoId cacheHit 1
      { method := "GET", originalUrl := "/api/periods", ifNoneMatch := none }
      (200, JsonVal.null)).1.body = some (JsonVal.str "v") :=
  ⟨((middleware_hit_conditional_semantics cryptoId cacheHit 1
      { method := "GET", originalUrl := "/api/periods", ifNoneMatch := some "" }
      (200, JsonVal.null)
      { data := JsonVal.str "v", etag := "", expiresAt := 3600000, createdAt := 0 }
      rfl rfl rfl (by decide)).1 rfl).1,
   ((middleware_hit_conditional_semantics cryptoId cacheHit 1
      { method := "GET", originalUrl := "/api/periods", ifNoneMatch := none }
      (200, JsonVal.null)
      { data := JsonVal.str "v", etag := "", expiresAt := 3600000, createdAt := 0 }
      rfl rfl rfl (by decide)).2 (by simp)).2.1⟩

/-- Claim C9: a conditional request answered 304 still counts as a hit:
the lookup increments the hit counter before the validator is compared,
so `getStats` reports one more hit and the same misses. -/
theorem middleware_304_counts_hit (crypto : Crypto) (c : InMemoryCache)
    (now : Nat) (req : Request) (handler : Nat × JsonVal) (item : CacheEntry)
    (hm : req.method = "GET")
    (hnc : strIncludes req.originalUrl "/cache/" = false)
    (hfind : mapGet c.cache (generateKey req) = some item)
    (hfresh : now ≤ item.expiresAt)
    (hmatch : req.ifNoneMatch = some item.etag) :
    (middleware crypto c now req handler).1.status = 304 ∧
    (middleware crypto c now req handler).2.hits = c.hits + 1 ∧
    (middleware crypto c now req handler).2.misses = c.misses ∧
    ((middleware crypto c now req handler).2.getStats).hits = c.getStats.hits + 1 ∧
    ((middleware crypto c now req handler).2.getStats).misses = c.getStats.misses := by
  have hng : ¬ now > item.expiresAt := by omega
  have hget : c.get now (generateKey req) = (some item, { c with hits := c.hits + 1 }) := by
    simp [InMemoryCache.get, hfind, hng]
  simp [middleware, hm, hnc, hget, hmatch, InMemoryCache.getStats]

theorem middleware_304_counts_hit_witness :
    (middleware cryptoId cacheHit 1
      { method := "GET", originalUrl := "/api/periods", ifNoneMatch := some "" }
      (200, JsonVal.null)).1.status = 304 ∧
    (middleware cryptoId cacheHit 1
      { method := "GET", originalUrl := "/api/periods", ifNoneMatch := some "" }
      (200, JsonVal.null)).2.hits = cacheHit.hits + 1 ∧
    (middleware cryptoId cacheHit 1
      { method := "GET", originalUrl := "/api/periods", ifNoneMatch := some "" }
      (200, JsonVal.null)).2.misses = cacheHit.misses ∧
    ((middleware cryptoId cacheHit 1
      { method := "GET", originalUrl := "/api/periods", ifNoneMatch := some "" }
      (200, JsonVal.null)).2.getStats).hits = cacheHit.getStats.hits + 1 ∧
    ((middleware cryptoId cacheHit 1
      { method := "GET", originalUrl := "/api/periods", ifNoneMatch := some "" }
      (200, JsonVal.null)).2.getStats).misses = cacheHit.getStats.misses :=
  middleware_304_counts_hit cryptoId cacheHit 1
    { method := "GET", originalUrl := "/api/periods", ifNoneMatch := some "" }
    (200, JsonVal.null)
    { data := JsonVal.str "v", etag := "", expiresAt := 3600000, createdAt := 0 }
    rfl rfl rfl (by decide) rfl

/-- `set` strictly below capacity is a plain `Map.set` (no eviction). -/
theorem set_below_capacity (crypto : Crypto) (c : InMemoryCache) (now : Nat)
    (k : String) (d : JsonVal) (t : Option Nat)
    (hlt : c.cache.length < c.maxSize) :
    c.set crypto now k d t = { c with cache := (mapSet c.cache k
      { data := d, etag := generateETag crypto d,
        expiresAt := now + orDefault t c.ttl, createdAt := now }) } := by
  have hnot : ¬ c.cache.length ≥ c.maxSize := by omega
  simp [InMemoryCache.set, hnot]

/-- Claim C3 counterexample: at capacity, re-storing the already-present
key `k2` still evicts an entry: the other key `k1` is removed and the
store shrinks from 2 to 1, contradicting "replaces in place, no other
entry removed, size unchanged". -/
theorem set_present_key_at_capacity_evicts :
    cacheFull2.cache.length = 2 ∧
    cacheFull2.maxSize = 2 ∧
    (mapGet cacheFull2.cache "k2").isSome = true ∧
    (cacheFull2.set cryptoId 1 "k2" (JsonVal.num 3) none).cache.length = 1 ∧
    mapGet (cacheFull2.set cryptoId 1 "k2" (JsonVal.num 3) none).cache "k1" = none :=
  ⟨rfl, rfl, rfl, rfl, rfl⟩

/-- Claim C3 (amended): at or above capacity, `set` always evicts the
oldest-inserted entry first, whether or not the key is present:
re-storing a present key other than the oldest removes the oldest entry
and shrinks the store by one; re-storing the oldest key deletes it and
re-appends it, leaving the size unchanged but moving it to the back. -/
theorem set_at_capacity_always_evicts_oldest (crypto : Crypto) (c : InMemoryCache)
    (now : Nat) (k : String) (d : JsonVal) (t : Option Nat) (fk : String)
    (fe : CacheEntry) (tl : List (String × CacheEntry))
    (hc : c.cache = (fk, fe) :: tl)
    (hfull : c.maxSize ≤ c.cache.length)
    (hnd : (keysOf c.cache).Nodup) :
    (k ≠ fk → k ∈ keysOf tl →
       (c.set crypto now k d t).cache.length + 1 = c.cache.length ∧
       mapGet (c.set crypto now k d t).cache fk = none) ∧
    (k = fk →
       (c.set crypto now k d t).cache.length = c.cache.length ∧
       keysOf (c.set crypto now k d t).cache = keysOf tl ++ [k]) := by
  have hndtl : fk ∉ keysOf tl ∧ (keysOf tl).Nodup := by
    rw [hc] at hnd
    exact List.nodup_cons.mp hnd
  rw [set_at_capacity crypto c now k d t fk fe tl hc hfull]
  constructor
  · intro hkne hmem
    constructor
    · simp only [List.length_cons, hc]
      rw [mapSet_length_of_mem tl k _ hmem]
    · have hout : fk ∉ keysOf (mapSet tl k
          { data := d, etag := generateETag crypto d,
            expiresAt := now + orDefault t c.ttl, createdAt := now }) := by
        rw [keysOf_mapSet_of_mem tl k _ hmem]
        exact hndtl.1
      exact (mapGet_eq_none_iff _ _).mpr hout
  · intro hke
    subst hke
    have hget : mapGet tl k = none := (mapGet_eq_none_iff tl k).mpr hndtl.1
    rw [mapSet_of_get_none tl k _ hget]
    constructor
    · simp [hc]
    · simp [keysOf_append, keysOf, hc]

theorem set_at_capacity_always_evicts_oldest_witness :
    (((cacheFull2.set cryptoId 1 "k2" (JsonVal.num 3) none).cache.length + 1
        = cacheFull2.cache.length) ∧
      mapGet (cacheFull2.set cryptoId 1 "k2" (JsonVal.num 3) none).cache "k1" = none) ∧
    (((cacheFull2.set cryptoId 1 "k1" (JsonVal.num 3) none).cache.length
        = cacheFull2.cache.length) ∧
      keysOf (cacheFull2.set cryptoId 1 "k1" (JsonVal.num 3) none).cache
        = keysOf [("k2", e2Full)] ++ ["k1"]) :=
  ⟨(set_at_capacity_always_evicts_oldest cryptoId cacheFull2 1 "k2" (JsonVal.num 3) none
      "k1" e1Full [("k2", e2Full)] rfl (by decide) (by decide)).1
      (by decide) (by decide),
   (set_at_capacity_always_evicts_oldest cryptoId cacheFull2 1 "k1" (JsonVal.num 3) none
      "k1" e1Full [("k2", e2Full)] rfl (by decide) (by decide)).2 rfl⟩

/-- Claim C10 counterexample: at capacity, re-storing the
earliest-inserted key `k1` moves it to the back of the eviction order
(the eviction deletes it and the `Map.set` re-appends it), so the next
capacity eviction removes `k2`, not `k1` — the earliest-inserted key
does NOT remain the next victim after a re-store. -/
theorem restored_oldest_key_not_next_victim :
    keysOf cacheFull2.cache = ["k1", "k2"] ∧
    keysOf cacheRestored.cache = ["k2", "k1"] ∧
    mapGet cacheAfterNew.cache "k2" = none ∧
    (mapGet cacheAfterNew.cache "k1").isSome = true ∧
    keysOf cacheAfterNew.cache = ["k1", "k3"] :=
  ⟨rfl, rfl, rfl, rfl, rfl⟩

/-- Claim C10 (amended): strictly below capacity, re-storing an existing
key refreshes payload, fingerprint and expiry in place without moving it
in the eviction order; at capacity, every `set` first evicts the
oldest-inserted entry, so re-storing the oldest key re-inserts it at the
back of the order (the second-oldest entry becomes the next victim) while
the size is unchanged. -/
theorem set_replace_order_semantics (crypto : Crypto) (c : InMemoryCache) (now : Nat)
    (k : String) (d : JsonVal) (t : Option Nat)
    (hnd : (keysOf c.cache).Nodup) :
    (c.cache.length < c.maxSize → k ∈ keysOf c.cache →
       keysOf (c.set crypto now k d t).cache = keysOf c.cache ∧
       mapGet (c.set crypto now k d t).cache k =
         some { data := d, etag := generateETag crypto d,
                expiresAt := now + orDefault t c.ttl, createdAt := now }) ∧
    (∀ fe tl, c.cache = (k, fe) :: tl → c.maxSize ≤ c.cache.length →
       keysOf (c.set crypto now k d t).cache = keysOf tl ++ [k] ∧
       (c.set crypto now k d t).cache.length = c.cache.length) := by
  constructor
  · intro hlt hmem
    rw [set_below_capacity crypto c now k d t hlt]
    exact ⟨keysOf_mapSet_of_mem c.cache k _ hmem, mapGet_mapSet_self c.cache k _ hmem⟩
  · intro fe tl hc hfull
    have hndtl : k ∉ keysOf tl ∧ (keysOf tl).Nodup := by
      rw [hc] at hnd
      exact List.nodup_cons.mp hnd
    rw [set_at_capacity crypto c now k d t k fe tl hc hfull]
    have hget : mapGet tl k = none := (mapGet_eq_none_iff tl k).mpr hndtl.1
    rw [mapSet_of_get_none tl k _ hget]
    constructor
    · simp [keysOf_append, keysOf]
    · simp [hc]

theorem set_replace_order_semantics_witness :
    (keysOf (cacheRoomy.set cryptoId 7 "a" (JsonVal.num 8) none).cache
        = keysOf cacheRoomy.cache ∧
      mapGet (cacheRoomy.set cryptoId 7 "a" (JsonVal.num 8) none).cache "a" =
        some { data := JsonVal.num 8, etag := "",
               expiresAt := 7 + orDefault none cacheRoomy.ttl, createdAt := 7 }) ∧
    (keysOf (cacheFull2.set cryptoId 1 "k1" (JsonVal.num 9) none).cache
        = keysOf [("k2", e2Full)] ++ ["k1"] ∧
      (cacheFull2.set cryptoId 1 "k1" (JsonVal.num 9) none).cache.length
        = cacheFull2.cache.length) :=
  ⟨(set_replace_order_semantics cryptoId cacheRoomy 7 "a" (JsonVal.num 8) none
      (by decide)).1 (by decide) (by decide),
   (set_replace_order_semantics cryptoId cacheFull2 1 "k1" (JsonVal.num 9) none
      (by decide)).2 e1Full [("k2", e2Full)] rfl (by decide)⟩

theorem keysOf_map_entryOf (crypto : Crypto) (now ttl : Nat) :
    ∀ (kvs : List (String × JsonVal)),
      keysOf (kvs.map (entryOf crypto now ttl)) = kvs.map Prod.fst
  | [] => rfl
  | q :: rest => by
    simp only [List.map_cons, keysOf, entryOf]
    rw [show List.map Prod.fst (List.map (entryOf crypto now ttl) rest)
        = keysOf (List.map (entryOf crypto now ttl) rest) from rfl]
    rw [keysOf_map_entryOf crypto now ttl rest]

/-- Claim C4: starting from an empty cache with positive capacity
`maxSize` (the constructor never yields capacity 0), storing
`maxSize + 1` pairwise-distinct keys leaves exactly `maxSize` entries:
all but the first key, in insertion order; the first-inserted key is the
single key no longer present. The `maxSize + 1` keys are written
`kv0 :: mid ++ [kvLast]` with `mid.length + 1 = maxSize`. -/
theorem insert_beyond_capacity_evicts_first_key (crypto : Crypto) (now : Nat)
    (c : InMemoryCache) (kv0 : String × JsonVal) (mid : List (String × JsonVal))
    (kvLast : String × JsonVal)
    (hempty : c.cache = [])
    (hsize : mid.length + 1 = c.maxSize)
    (hnd : (((kv0 :: mid) ++ [kvLast]).map Prod.fst).Nodup) :
    (storeList crypto now c ((kv0 :: mid) ++ [kvLast])).cache.length = c.maxSize ∧
    keysOf (storeList crypto now c ((kv0 :: mid) ++ [kvLast])).cache
      = (mid ++ [kvLast]).map Prod.fst ∧
    mapGet (storeList crypto now c ((kv0 :: mid) ++ [kvLast])).cache kv0.1 = none := by
  have hmapfst : ((kv0 :: mid).map Prod.fst ++ [kvLast.1]).Nodup := by
    simpa using hnd
  have hnd1 : ((kv0 :: mid).map Prod.fst).Nodup := (List.nodup_append.mp hmapfst).1
  have hdisj : ((kv0 :: mid).map Prod.fst).Disjoint [kvLast.1] :=
    (List.nodup_append.mp hmapfst).2.2
  have hlastne : kvLast.1 ∉ (kv0 :: mid).map Prod.fst := by
    intro hmem
    exact hdisj hmem (List.mem_singleton.mpr rfl)
  have hfresh0 : ∀ q ∈ kv0 :: mid, mapGet c.cache q.1 = none := by
    intro q _
    rw [hempty]
    rfl
  have hlen0 : c.cache.length + (kv0 :: mid).length ≤ c.maxSize := by
    rw [hempty]
    simp
    omega
  have hfront := storeList_fresh crypto now (kv0 :: mid) c hlen0 hfresh0 hnd1
  rw [storeList_append, hfront]
  have hone : ∀ (x : InMemoryCache), storeList crypto now x [kvLast]
      = x.set crypto now kvLast.1 kvLast.2 none := by
    intro x
    simp [storeList]
  rw [hone]
  have hBc : ({ c with cache := (c.cache ++
        (kv0 :: mid).map (entryOf crypto now c.ttl)) } : InMemoryCache).cache
      = (kv0.1, { data := kv0.2, etag := generateETag crypto kv0.2,
                  expiresAt := now + c.ttl, createdAt := now })
        :: mid.map (entryOf crypto now c.ttl) := by
    simp [hempty, entryOf]
  have hBfull : ({ c with cache := (c.cache ++
        (kv0 :: mid).map (entryOf crypto now c.ttl)) } : InMemoryCache).maxSize
      ≤ ({ c with cache := (c.cache ++
        (kv0 :: mid).map (entryOf crypto now c.ttl)) } : InMemoryCache).cache.length := by
    simp [hempty]
    omega
  rw [set_at_capacity crypto _ now kvLast.1 kvLast.2 none kv0.1
    { data := kv0.2, etag := generateETag crypto kv0.2,
      expiresAt := now + c.ttl, createdAt := now }
    (mid.map (entryOf crypto now c.ttl)) hBc hBfull]
  have hmidkeys : keysOf (mid.map (entryOf crypto now c.ttl)) = mid.map Prod.fst :=
    keysOf_map_entryOf crypto now c.ttl mid
  have htlfresh : mapGet (mid.map (entryOf crypto now c.ttl)) kvLast.1 = none := by
    apply (mapGet_eq_none_iff _ _).mpr
    rw [hmidkeys]
    intro hmem
    exact hlastne (List.mem_cons_of_mem kv0.1 hmem)
  rw [mapSet_of_get_none _ _ _ htlfresh]
  have hk0mid : kv0.1 ∉ mid.map Prod.fst := by
    have := (List.nodup_cons.mp hnd1).1
    simpa using this
  have hk0last : kv0.1 ≠ kvLast.1 := by
    intro he
    exact hlastne (he ▸ List.mem_cons_self kv0.1 (mid.map Prod.fst))
  refine ⟨?_, ?_, ?_⟩
  · simp
    omega
  · simp [keysOf_append, hmidkeys, keysOf, entryOf]
  · apply (mapGet_eq_none_iff _ _).mpr
    rw [keysOf_append, hmidkeys]
    intro hmem
    rcases List.mem_append.mp hmem with h1 | h2
    · exact hk0mid h1
    · simp [keysOf] at h2
      exact hk0last h2

theorem insert_beyond_capacity_evicts_first_key_witness :
    c4After.cache.length = (mkInMemoryCache { ttl := none, maxSize := some 2 }).maxSize ∧
    keysOf c4After.cache = ([("b", JsonVal.num 2)] ++ [("c", JsonVal.num 3)]).map Prod.fst ∧
    mapGet c4After.cache "a" = none :=
  insert_beyond_capacity_evicts_first_key cryptoId 0
    (mkInMemoryCache { ttl := none, maxSize := some 2 })
    ("a", JsonVal.num 1) [("b", JsonVal.num 2)] ("c", JsonVal.num 3)
    rfl rfl (by decide)

/-- When both metadata fetches return rows and the cache has room and
neither metadata key is present, `warmMetadata` appends the two metadata
entries in order and counts 2 successes. -/
theorem warmMetadata_ok (crypto : Crypto) (db : DataAccess) (st : WarmState)
    (c : InMemoryCache) (now : Nat) (ir mr : List JsonVal)
    (hind : db.indicesRows = Except.ok ir)
    (hmun : db.municipalitiesRows = Except.ok mr)
    (hroom : c.cache.length + 2 ≤ c.maxSize)
    (hf1 : mapGet c.cache "GET:/api/indices" = none)
    (hf2 : mapGet c.cache "GET:/api/municipalities" = none) :
    warmMetadata crypto db st c now =
      ({ st with warmedCount := st.warmedCount + 2 },
       { c with cache := (c.cache ++
          [("GET:/api/indices", metaEntry crypto now c.ttl ir),
           ("GET:/api/municipalities", metaEntry crypto now c.ttl mr)]) }) := by
  have hlt1 : c.cache.length < c.maxSize := by omega
  have hset1 : c.set crypto now "GET:/api/indices" (metaEnvelope ir)
      (some (7 * 24 * 60 * 60 * 1000)) =
      { c with cache := (c.cache ++ [("GET:/api/indices", metaEntry crypto now c.ttl ir)]) } := by
    rw [set_of_fresh crypto c now "GET:/api/indices" (metaEnvelope ir)
      (some (7 * 24 * 60 * 60 * 1000)) hlt1 hf1]
    rfl
  have hf2' : mapGet (c.cache ++ [("GET:/api/indices", metaEntry crypto now c.ttl ir)])
      "GET:/api/municipalities" = none := by
    rw [mapGet_append_none _ _ _ hf2]
    rfl
  have hlt2 : (c.cache ++ [("GET:/api/indices", metaEntry crypto now c.ttl ir)]).length
      < c.maxSize := by
    simp
    omega
  have hset2 : InMemoryCache.set crypto
      { c with cache := (c.cache ++ [("GET:/api/indices", metaEntry crypto now c.ttl ir)]) }
      now "GET:/api/municipalities" (metaEnvelope mr) (some (7 * 24 * 60 * 60 * 1000)) =
      { c with cache := (c.cache ++
        [("GET:/api/indices", metaEntry crypto now c.ttl ir),
         ("GET:/api/municipalities", metaEntry crypto now c.ttl mr)]) } := by
    rw [set_of_fresh crypto
      { c with cache := (c.cache ++ [("GET:/api/indices", metaEntry crypto now c.ttl ir)]) }
      now "GET:/api/municipalities" (metaEnvelope mr) (some (7 * 24 * 60 * 60 * 1000))
      hlt2 hf2']
    simp [List.append_assoc, metaEntry]
  simp only [warmMetadata, hind, hmun]
  rw [hset1, hset2]

/-- Claim C8: against an empty cache of capacity at least 29, with every
data-access call returning data, the warm run installs exactly 29
entries — the 2 metadata entries then the 27 GeoJSON entries, one per
index, under pairwise-distinct keys — and reports 29 warmed, 0 failed. -/
theorem warmCache_29_entries (crypto : Crypto) (db : DataAccess)
    (c : InMemoryCache) (now : Nat) (ir mr : List JsonVal)
    (hempty : c.cache = [])
    (hmax : 29 ≤ c.maxSize)
    (hind : db.indicesRows = Except.ok ir)
    (hmun : db.municipalitiesRows = Except.ok mr)
    (hgeo : ∀ i ∈ CLIMATE_INDICES, ∃ fc,
      db.geojsonResult "ssp245" "near-term_2021-2040" i = Except.ok (some fc)) :
    (warmCache crypto db c now).2.cache.length = 29 ∧
    keysOf (warmCache crypto db c now).2.cache = WARM_KEYS ∧
    WARM_KEYS.Nodup ∧
    (warmCache crypto db c now).1.warmedCount = 29 ∧
    (warmCache crypto db c now).1.failedCount = 0 := by
  have hmeta := warmMetadata_ok crypto db { warmedCount := 0, failedCount := 0 } c now ir mr
    hind hmun (by rw [hempty]; simp; omega) (by rw [hempty]; rfl) (by rw [hempty]; rfl)
  have hmeta2 : warmMetadata crypto db { warmedCount := 0, failedCount := 0 } c now =
      ({ warmedCount := 2, failedCount := 0 },
       { c with cache := (c.cache ++
          [("GET:/api/indices", metaEntry crypto now c.ttl ir),
           ("GET:/api/municipalities", metaEntry crypto now c.ttl mr)]) }) := by
    rw [hmeta]
  have hwc : warmCache crypto db c now = warmTier1 crypto db
      (warmMetadata crypto db { warmedCount := 0, failedCount := 0 } c now).1
      (warmMetadata crypto db { warmedCount := 0, failedCount := 0 } c now).2 now := rfl
  have hT1 : warmCache crypto db c now =
      TIER1_INDICES.foldl (warmStep crypto db now "ssp245" "near-term_2021-2040")
        ({ warmedCount := 2, failedCount := 0 },
         { c with cache := (c.cache ++
            [("GET:/api/indices", metaEntry crypto now c.ttl ir),
             ("GET:/api/municipalities", metaEntry crypto now c.ttl mr)]) }) := by
    rw [hwc, hmeta2, warmTier1_eq_foldl]
  have hsub : ∀ j ∈ TIER1_INDICES, j ∈ CLIMATE_INDICES := by decide
  have hkeysne : ∀ i ∈ TIER1_INDICES,
      geoKey "ssp245" "near-term_2021-2040" i ≠ "GET:/api/indices" ∧
      geoKey "ssp245" "near-term_2021-2040" i ≠ "GET:/api/municipalities" := by decide
  have hc2 : ({ c with cache := (c.cache ++
      [("GET:/api/indices", metaEntry crypto now c.ttl ir),
       ("GET:/api/municipalities", metaEntry crypto now c.ttl mr)]) } : InMemoryCache).cache
      = [("GET:/api/indices", metaEntry crypto now c.ttl ir),
         ("GET:/api/municipalities", metaEntry crypto now c.ttl mr)] := by
    rw [hempty]
    rfl
  have hlen27 : TIER1_INDICES.length = 27 := rfl
  obtain ⟨h1, h2, h3, h4, h5, h6, h7⟩ :=
    warmSeq_fresh crypto db now "ssp245" "near-term_2021-2040" TIER1_INDICES
      { warmedCount := 2, failedCount := 0 }
      { c with cache := (c.cache ++
         [("GET:/api/indices", metaEntry crypto now c.ttl ir),
          ("GET:/api/municipalities", metaEntry crypto now c.ttl mr)]) }
      (fun i hi => hgeo i (hsub i hi))
      (by rw [hempty]; simp; omega)
      (by
        intro i hi
        rw [hc2]
        apply (mapGet_eq_none_iff _ _).mpr
        simp only [keysOf, List.map_cons, List.map_nil, List.mem_cons, List.not_mem_nil]
        intro hmem
        rcases hmem with he | he | he
        · exact (hkeysne i hi).1 he
        · exact (hkeysne i hi).2 he
        · exact he)
      (by decide)
  refine ⟨?_, ?_, by decide, ?_, ?_⟩
  · rw [hT1, h2, hc2, hlen27]
    rfl
  · rw [hT1, h1, hc2]
    rfl
  · rw [hT1, h3, hlen27]
  · rw [hT1, h4]

theorem warmCache_29_entries_witness :
    (warmCache cryptoId dbOk cacheSingleton 0).2.cache.length = 29 ∧
    keysOf (warmCache cryptoId dbOk cacheSingleton 0).2.cache = WARM_KEYS ∧
    (warmCache cryptoId dbOk cacheSingleton 0).1.warmedCount = 29 ∧
    (warmCache cryptoId dbOk cacheSingleton 0).1.failedCount = 0 :=
  have h := warmCache_29_entries cryptoId dbOk cacheSingleton 0 [] [] rfl (by decide)
    rfl rfl (fun i _ => ⟨fcSample, rfl⟩)
  ⟨h.1, h.2.1, h.2.2.2.1, h.2.2.2.2⟩

set_option maxRecDepth 20000 in
/-- Claim C2 counterexample: with a hard error in the metadata phase, the
warm run does NOT abort: it records 2 failures, continues into the
GeoJSON phase, warms all 27 GeoJSON entries, and returns normally (the
`catch` inside `warmMetadata` swallows the error, so `warmCache`'s own
rethrowing `catch` never fires). -/
theorem warmCache_continues_after_metadata_error :
    (warmCache cryptoId dbMetaFail cacheSingleton 0).1.failedCount = 2 ∧
    (warmCache cryptoId dbMetaFail cacheSingleton 0).1.warmedCount = 27 ∧
    (mapGet (warmCache cryptoId dbMetaFail cacheSingleton 0).2.cache
      (geoKey "ssp245" "near-term_2021-2040" "cdd")).isSome = true ∧
    (warmCache cryptoId dbMetaFail cacheSingleton 0).2.cache.length = 27 :=
  ⟨rfl, rfl, rfl, rfl⟩

/-- Claim C2 (amended): a hard error from the data-access collaborator in
the metadata phase is caught inside that phase, counted as 2 failed
entries, and the run proceeds into the GeoJSON phase on the untouched
cache; `warmCache` completes normally rather than surfacing the error to
its caller. -/
theorem warmCache_swallows_metadata_error (crypto : Crypto) (db : DataAccess)
    (c : InMemoryCache) (now : Nat) (e : String)
    (hfail : db.indicesRows = Except.error e) :
    warmCache crypto db c now =
      warmTier1 crypto db { warmedCount := 0, failedCount := 2 } c now := by
  simp [warmCache, warmMetadata, hfail]

theorem warmCache_swallows_metadata_error_witness :
    warmCache cryptoId dbMetaFail cacheSingleton 0 =
      warmTier1 cryptoId dbMetaFail { warmedCount := 0, failedCount := 2 }
        cacheSingleton 0 :=
  warmCache_swallows_metadata_error cryptoId dbMetaFail cacheSingleton 0
    "ECONNREFUSED" rfl

/-- Claim C1: for scenario `ssp245`, period `near-term_2021-2040`, index
`cdd` and a non-empty feature collection from the collaborator, the route
handler passes the raw feature collection to `res.json` (and the
middleware caches exactly that on a miss), but `warmEntry` installs
`{ success: true, data: fc }` under the same key — an envelope-wrapped
payload, different from the raw feature collection. -/
theorem warmEntry_payload_differs_from_route :
    geojsonRoute dbOk "ssp245" "near-term_2021-2040" "cdd"
      = Except.ok (200, fcSample) ∧
    ((mapGet (middleware cryptoId (mkInMemoryCache { ttl := none, maxSize := none }) 0
        { method := "GET",
          originalUrl := "/api/climate-data/geojson/ssp245/near-term_2021-2040/cdd",
          ifNoneMatch := none }
        (200, fcSample)).2.cache
      (geoKey "ssp245" "near-term_2021-2040" "cdd")).map CacheEntry.data)
      = some fcSample ∧
    ((mapGet (warmEntry cryptoId dbOk { warmedCount := 0, failedCount := 0 }
        cacheSingleton 0 "ssp245" "near-term_2021-2040" "cdd").2.2.cache
      (geoKey "ssp245" "near-term_2021-2040" "cdd")).map CacheEntry.data)
      = some (warmWrap fcSample) ∧
    warmWrap fcSample ≠ fcSample :=
  ⟨rfl, rfl, rfl, by
    intro h
    have h2 := congrArg topFieldName h
    simp only [topFieldName, warmWrap, fcSample] at h2
    exact (by decide : ("success" : String) ≠ "type") (Option.some.inj h2)⟩

